import Mathlib

/-!
# Verification of the IngroSmart catalog-fetch agent

A shallow embedding, in Lean 4, of the core logic of the IngroSmart
catalog-fetch agent (a Node.js program): the retry engine `withRetry`,
the content classifier `ensureCsv`, the resilient action primitives
`clickFirst` / `fillFirst`, the login-verification predicate, the
download-with-reauthentication flow, and the two revisions of the
storage layer (`deliver` / `pruneHistory`).

Modelling conventions:
* JavaScript strings and byte buffers are modelled as `List Char`
  (abbreviated `Str`).  All payloads the program classifies are ASCII
  text, for which the byte length of a buffer equals its character
  count, so `List.length` models both `String.prototype.length` and
  `Buffer.length`.
* Effectful calls into the browser/network are modelled by passing the
  environment's responses explicitly (e.g. a fetch outcome, the
  visibility of a selector); thrown JavaScript errors are modelled with
  `Except` where the error carries the JS error message.
* Each embedded function keeps the name of its JavaScript source
  function and mirrors its control flow line by line.
-/

namespace Ingrosmart

/-! ## JavaScript string primitives on `List Char` -/

/-- A JavaScript string / byte buffer, as its list of characters. -/
abbrev Str := List Char

/-- Coerce a Lean string literal to the `Str` model. -/
def str (s : String) : Str := s.data

/-- `hay.includes(needle)` (JS substring containment). -/
def includesB (needle : Str) : Str → Bool
  | [] => needle.isEmpty
  | c :: rest => needle.isPrefixOf (c :: rest) || includesB needle rest

/-- `s.toLowerCase()` (ASCII case folding suffices for this program). -/
def lowerStr (s : Str) : Str := s.map Char.toLower

/-- `s.trim()`: strip leading and trailing whitespace. -/
def trimStr (s : Str) : Str :=
  ((s.dropWhile Char.isWhitespace).reverse.dropWhile Char.isWhitespace).reverse

/-- `s.endsWith(suffix)`. -/
def endsWithB (pat s : Str) : Bool := List.isSuffixOf pat s

/-- The decimal digit characters used when a JS number is interpolated
into a template literal. -/
def digitChar10 : Nat → Char
  | 0 => '0' | 1 => '1' | 2 => '2' | 3 => '3' | 4 => '4'
  | 5 => '5' | 6 => '6' | 7 => '7' | 8 => '8' | 9 => '9'
  | _ => '*'

/-- Fuelled accumulator loop producing the decimal digits of `n`. -/
def natDigitsGo : Nat → Nat → Str → Str
  | 0, _, acc => acc
  | fuel + 1, n, acc =>
    let d := digitChar10 (n % 10)
    if n / 10 = 0 then d :: acc
    else natDigitsGo fuel (n / 10) (d :: acc)

/-- Decimal rendering of a natural number (JS `${status}`). -/
def natDigits (n : Nat) : Str := natDigitsGo (n + 1) n []

/-! ## `src/utils.js` — `ensureCsv` (the Content Classifier) -/

/-- The content types the classifier trusts as CSV-ish
(`utils.js`, `validTypes`). -/
def validTypes : List Str :=
  [str "text/csv", str "application/csv", str "application/octet-stream",
   str "application/x-csv"]

/-- The HTML structural markers the classifier rejects
(`utils.js`, `htmlMarkers`). -/
def htmlMarkers : List Str :=
  [str "<!doctype", str "<html", str "<head", str "<body", str "<meta",
   str "<title", str "<script", str "<div"]

/-- The classifier's sample: up to the first 2048 bytes, decoded,
lower-cased and trimmed (`utils.js` lines 128–129). -/
def sampleOf (buffer : Str) : Str :=
  trimStr (lowerStr (buffer.take (min buffer.length 2048)))

/-- `hasDelimiters` from `utils.js` line 141. -/
def hasDelimitersIn (sample : Str) : Bool :=
  includesB (str ",") sample || includesB (str ";") sample ||
  includesB (str "\t") sample || includesB (str "|") sample

/-- `hasNewlines` from `utils.js` line 142. -/
def hasNewlinesIn (sample : Str) : Bool :=
  includesB (str "\n") sample || includesB (str "\r") sample

/-- The content classifier `ensureCsv(buffer, contentType = '')` from
`src/utils.js` lines 116–156, embedded step for step. -/
def ensureCsv (buffer : Str) (contentType : Str := []) : Bool :=
  let lowerContentType := lowerStr contentType
  -- If content type suggests HTML, it's definitely not CSV
  if includesB (str "text/html") lowerContentType ||
     includesB (str "application/xhtml") lowerContentType then
    false
  else
    -- Check more bytes for better detection (up to 2048)
    let sample := sampleOf buffer
    -- Check for HTML markers
    if htmlMarkers.any (fun marker => includesB marker sample) then
      false
    else
      -- Check for CSV-like structure (should have delimiters)
      let hasDelimiters := hasDelimitersIn sample
      let hasNewlines := hasNewlinesIn sample
      if !hasDelimiters && decide (buffer.length > 100) then
        false
      -- If we have a valid CSV content type, trust it
      else if validTypes.any (fun t => includesB t lowerContentType) then
        true
      -- Otherwise, check if it looks like CSV data
      else
        hasDelimiters || hasNewlines || decide (buffer.length < 100)

/-! ## `src/utils.js` — `withRetry` (the Retry Engine)

The wrapped operation is modelled as `fn : Nat → Except ε α`, giving the
outcome of its `k`-th invocation (`k` counted from 1, matching the JS
`attempt` counter).  The trace records the returned/re-thrown outcome,
how many times the operation was invoked, and the sequence of backoff
delays slept between failed attempts. -/

/-- Observable behaviour of one `withRetry` run. -/
structure RetryTrace (ε α : Type) where
  result : Except ε α
  calls : Nat
  delays : List Nat

/-- The `for (let attempt = 1; attempt <= retries + 1; attempt++)` loop
of `withRetry` (`src/utils.js` lines 79–95), entered at `attempt`. -/
def withRetryAux {ε α : Type} (fn : Nat → Except ε α)
    (retries baseDelayMs maxDelayMs attempt : Nat) : RetryTrace ε α :=
  match fn attempt with
  | .ok v => ⟨.ok v, 1, []⟩
  | .error e =>
    if h : attempt ≤ retries then
      let delay := min (baseDelayMs * 2 ^ (attempt - 1)) maxDelayMs
      let rest := withRetryAux fn retries baseDelayMs maxDelayMs (attempt + 1)
      ⟨rest.result, rest.calls + 1, delay :: rest.delays⟩
    else
      ⟨.error e, 1, []⟩
termination_by retries + 1 - attempt
decreasing_by omega

/-- `withRetry(fn, {retries, baseDelayMs, maxDelayMs})` from
`src/utils.js` lines 69–96. -/
def withRetry {ε α : Type} (fn : Nat → Except ε α)
    (retries : Nat := 2) (baseDelayMs : Nat := 1500)
    (maxDelayMs : Nat := 30000) : RetryTrace ε α :=
  withRetryAux fn retries baseDelayMs maxDelayMs 1

/-! ## `src/index.js` — `clickFirst` / `fillFirst`
(the Resilient Action Primitives)

The browser's responses for one selector are: whether
`page.locator(selector).first()` throws, whether the element is visible
(the `isVisible` probe's errors are already folded to `false` by the
source's `.catch(() => false)`), and whether the performed action
(`click` / `fill`) itself throws.  A thrown lookup or action is caught
by the source's `try { ... } catch (e) { continue }`. -/

/-- The environment's responses for probing/acting on one selector. -/
structure SelProbe where
  locateThrows : Bool
  visible : Bool
  actionThrows : Bool
deriving DecidableEq

/-- Observable behaviour of one `clickFirst`/`fillFirst` call: the
returned boolean and the selectors on which the action was attempted,
in order. -/
structure ActionTrace where
  success : Bool
  acted : List Str
deriving DecidableEq

/-- `clickFirst(page, selectorList, options)` from `src/index.js`
lines 40–60. -/
def clickFirst (page : Str → SelProbe) : List Str → ActionTrace
  | [] => ⟨false, []⟩
  | s :: rest =>
    let probe := page s
    if probe.locateThrows then
      clickFirst page rest
    else if probe.visible then
      if probe.actionThrows then
        let t := clickFirst page rest
        ⟨t.success, s :: t.acted⟩
      else
        ⟨true, [s]⟩
    else
      clickFirst page rest

/-- `fillFirst(page, selectorList, value)` from `src/index.js`
lines 65–81. -/
def fillFirst (page : Str → SelProbe) (value : Str) : List Str → ActionTrace
  | [] => ⟨false, []⟩
  | s :: rest =>
    let probe := page s
    if probe.locateThrows then
      fillFirst page value rest
    else if probe.visible then
      if probe.actionThrows then
        let t := fillFirst page value rest
        ⟨t.success, s :: t.acted⟩
      else
        ⟨true, [s]⟩
    else
      fillFirst page value rest

/-! ## `src/index.js` — login verification (`login`, lines 126–159)

After submitting the form, `login` inspects the current URL and, if the
URL check is inconclusive, probes the configured account-indicator
selectors.  An indicator probe is `some b` when `isVisible` resolved to
`b` and `none` when the lookup threw (the source catches and
continues). -/

/-- The URL-and-indicator check of `login` (`src/index.js`
lines 126–152): `isLoggedIn` after both signal evaluations. -/
def loginVerify (currentUrl baseUrl : Str) (indicators : List (Option Bool)) : Bool :=
  -- Check URL patterns that indicate successful login
  let urlOk := !includesB (str "/login") currentUrl &&
    (includesB (str "/account") currentUrl ||
     includesB (str "/dashboard") currentUrl ||
     decide (currentUrl = baseUrl ++ str "/"))
  if urlOk then true
  -- If URL check is inconclusive, check for account indicators
  else indicators.any (fun probe => probe == some true)

/-- The error thrown when verification fails (`src/index.js` line 155). -/
def loginFailedMsg : Str :=
  str "Login verification failed - still on login page or no account indicators found"

/-- Outcome of the verification step of `login` (`src/index.js`
lines 154–159): `throw` when neither signal fired, success otherwise. -/
def loginOutcome (currentUrl baseUrl : Str) (indicators : List (Option Bool)) :
    Except Str Unit :=
  if loginVerify currentUrl baseUrl indicators then .ok ()
  else .error loginFailedMsg

/-! ## `src/index.js` — `downloadCsv` and `downloadWithRelogin` -/

/-- What `page.request.get(config.exportUrl, ...)` did: threw a network
error, or yielded a response with a status, a `content-type` header and
a body. -/
inductive FetchOutcome where
  | netError (msg : Str)
  | response (status : Nat) (contentType : Str) (body : Str)

/-- A successful download (`{ buffer, contentType, bytes }`). -/
structure CsvPayload where
  buffer : Str
  contentType : Str
  bytes : Nat

/-- The message of the error thrown on a non-200 status
(`src/index.js` line 192, `HTTP ${status} received`). -/
def httpStatusMsg (status : Nat) : Str :=
  str "HTTP " ++ natDigits status ++ str " received"

/-- The message of the error thrown when the classifier rejects the
body (`src/index.js` line 197). -/
def notCsvMsg : Str :=
  str "Received HTML instead of CSV - session may have expired"

/-- The marker `downloadWithRelogin` looks for in an error message
(`src/index.js` line 259). -/
def sessionExpiredMarker : Str := str "HTML instead of CSV"

/-- `downloadCsv(page)` from `src/index.js` lines 175–214, as a function
of the fetch outcome the environment produced. -/
def downloadCsv : FetchOutcome → Except Str CsvPayload
  | .netError msg => .error msg
  | .response status contentType body =>
    if status ≠ 200 then
      .error (httpStatusMsg status)
    -- Check if we got HTML instead of CSV (session expired)
    else if !ensureCsv body contentType then
      .error notCsvMsg
    else
      .ok ⟨body, contentType, body.length⟩

/-- Observable behaviour of one `downloadWithRelogin` attempt: its
outcome, how many times the export was fetched, and how many times the
Login State Machine was re-run. -/
structure DownloadTrace where
  result : Except Str CsvPayload
  fetchCalls : Nat
  loginCalls : Nat

/-- `downloadWithRelogin` from `src/index.js` lines 255–266: one
attempt of the download flow, as a function of the first fetch outcome,
the outcome of the (at most one) re-login, and the second fetch
outcome. -/
def downloadWithRelogin (fetch1 : FetchOutcome) (relogin : Except Str Unit)
    (fetch2 : FetchOutcome) : DownloadTrace :=
  match downloadCsv fetch1 with
  | .ok payload => ⟨.ok payload, 1, 0⟩
  | .error e =>
    if includesB sessionExpiredMarker e then
      match relogin with
      | .error loginErr => ⟨.error loginErr, 1, 1⟩
      | .ok _ => ⟨downloadCsv fetch2, 2, 1⟩
    else
      ⟨.error e, 1, 0⟩

/-- The environment's responses available to attempt `k` of the outer
retry loop around `downloadWithRelogin`. -/
structure AttemptEnv where
  fetch1 : FetchOutcome
  relogin : Except Str Unit
  fetch2 : FetchOutcome

/-- The download-then-deliver slice of `runAgent` (`src/index.js`
lines 268–277): the buffer and content type handed to `deliver`, if the
retried download succeeded (`withRetry(downloadWithRelogin,
{ retries: 2, baseDelayMs: 2000 })`). -/
def runAgentDelivered (env : Nat → AttemptEnv) : Option (Str × Str) :=
  match (withRetry
      (fun k => (downloadWithRelogin (env k).fetch1 (env k).relogin (env k).fetch2).result)
      2 2000 30000).result with
  | .ok payload => some (payload.buffer, payload.contentType)
  | .error _ => none

/-! ## The storage layer, newest revision (`src/storage.js`, the
revision shipped with `src/utils.js`): two alternating backup slots -/

/-- The history filename of the newest `deliver` revision
(lines 306–308): one of two fixed slots chosen by minute-of-hour. -/
def newHistoryFilename (currentMinute : Nat) : Str :=
  let backupSlot := if currentMinute < 30 then str "1" else str "2"
  str "ingrosmart_backup_" ++ backupSlot ++ str ".csv"

/-- The filenames written by the newest `deliver` revision
(lines 300–345), in order.  All three targets (`wp`, `s3`, `fs`) write
the catalog file then the slot backup. -/
def deliverNewWrites (target catalogFilename : Str) (currentMinute : Nat) : List Str :=
  let historyFilename := newHistoryFilename currentMinute
  if target = str "wp" then [catalogFilename, historyFilename]
  else if target = str "s3" then [catalogFilename, historyFilename]
  else [catalogFilename, historyFilename]

/-- `pruneHistory(target, keepCount)` of the newest revision
(lines 350–354): the body is a bare `return`, so the list of deleted
files is empty for every input. -/
def pruneHistoryNew (target : Str) (keepCount : Int) : List Str := []

/-! ## The storage layer, older revision (the superseded `storage.js`):
timestamped history plus keep-N pruning -/

/-- The history filename of the older `deliver` revision (line 146):
`ingrosmart-${timestamp}.csv`. -/
def oldHistoryFilename (timestamp : Str) : Str :=
  str "ingrosmart-" ++ timestamp ++ str ".csv"

/-- The filenames written by the older `deliver` revision
(lines 144–181), in order. -/
def deliverOldWrites (target catalogFilename timestamp : Str) : List Str :=
  let historyFilename := oldHistoryFilename timestamp
  if target = str "wp" then [catalogFilename, historyFilename]
  else if target = str "s3" then [catalogFilename, historyFilename]
  else [catalogFilename, historyFilename]

/-- The filter of `pruneLocalHistory` (line 221):
`f.startsWith('ingrosmart-') && f.endsWith('.csv')`. -/
def isHistoryCsvName (f : Str) : Bool :=
  (str "ingrosmart-").isPrefixOf f && endsWithB (str ".csv") f

/-- JS `Array.prototype.sort()` ordering on strings: lexicographic by
code unit. -/
def StrLe (a b : Str) : Prop := List.Lex (fun c d : Char => c.toNat < d.toNat) a b ∨ a = b

instance : DecidableRel StrLe := fun a b => by
  unfold StrLe
  infer_instance

/-- The history files of the older revision, newest first:
`files.filter(...).sort().reverse()` (lines 220–223). -/
def histNewestFirst (files : List Str) : List Str :=
  ((files.filter isHistoryCsvName).insertionSort StrLe).reverse

/-- `pruneLocalHistory(keepCount)` of the older revision
(lines 215–241): the history files it deletes, given the directory
listing. -/
def pruneLocalHistoryOld (files : List Str) (keepCount : Nat) : List Str :=
  let csvFiles := histNewestFirst files
  if csvFiles.length > keepCount then csvFiles.drop keepCount else []

/-! ## Theorems about the Content Classifier -/

/-- With an empty content-type header the HTML-type short-circuit
cannot fire. -/
lemma emptyCt_not_htmlish :
    (includesB (str "text/html") (lowerStr []) ||
     includesB (str "application/xhtml") (lowerStr [])) = false := by decide

/-- With an empty content-type header the CSV-ish trust rule cannot
fire. -/
lemma emptyCt_not_csvish :
    validTypes.any (fun t => includesB t (lowerStr [])) = false := by decide

/-- C4: for every buffer and every declared content type that
(case-insensitively) contains `text/html` or `application/xhtml`,
`ensureCsv` classifies the payload as not CSV, regardless of the
buffer's contents. -/
theorem ensureCsv_html_content_type (buffer contentType : Str)
    (h : (includesB (str "text/html") (lowerStr contentType) ||
          includesB (str "application/xhtml") (lowerStr contentType)) = true) :
    ensureCsv buffer contentType = false := by
  simp [ensureCsv, h]

/-- C4 witness: a body that is valid CSV text, and the spec's doctype
example, are both rejected under a `text/html` header. -/
theorem ensureCsv_html_content_type_witness :
    ensureCsv (str "id,name,price\n1,Product,100") (str "text/html") = false ∧
    ensureCsv (str "<!DOCTYPE html><html><body>x</body></html>") (str "text/html") = false :=
  ⟨ensureCsv_html_content_type _ _ (by decide),
   ensureCsv_html_content_type _ _ (by decide)⟩

/-- C5: a buffer whose sample (first 2048 bytes, lower-cased, trimmed)
contains any HTML structural marker is classified not CSV for every
declared content type — in particular for CSV-ish ones such as
`text/csv`: the marker check precedes the trust-the-header rule. -/
theorem ensureCsv_html_marker (buffer contentType : Str)
    (h : htmlMarkers.any (fun marker => includesB marker (sampleOf buffer)) = true) :
    ensureCsv buffer contentType = false := by
  simp [ensureCsv, h]

/-- C5 witness: a doctype-marked body is rejected although the header
says `text/csv`. -/
theorem ensureCsv_html_marker_witness :
    ensureCsv (str "<!DOCTYPE html><html><head></head><body>x</body></html>")
      (str "text/csv") = false :=
  ensureCsv_html_marker _ _ (by decide)

/-- C6: order of the length/delimiter rules.  (a) A buffer longer than
100 bytes whose sample has no delimiter is rejected for every declared
content type — the rejection precedes the rule trusting a CSV-ish
header.  (b) A buffer under 100 bytes that passes the content-type and
HTML-marker checks is accepted even with no delimiters, no newlines and
an empty content type. -/
theorem ensureCsv_length_delimiter_order :
    (∀ buffer contentType : Str, 100 < buffer.length →
      hasDelimitersIn (sampleOf buffer) = false →
      ensureCsv buffer contentType = false) ∧
    (∀ buffer : Str, buffer.length < 100 →
      htmlMarkers.any (fun marker => includesB marker (sampleOf buffer)) = false →
      hasDelimitersIn (sampleOf buffer) = false →
      hasNewlinesIn (sampleOf buffer) = false →
      ensureCsv buffer [] = true) := by
  constructor
  · intro buffer contentType hlen hdel
    simp [ensureCsv, hdel, hlen]
  · intro buffer hlen hmark hdel hnl
    simp [ensureCsv, emptyCt_not_htmlish, emptyCt_not_csvish, hmark, hlen, hdel, hnl]
    omega

/-- C6 witness: 101 delimiter-free bytes are rejected even under a
`text/csv` header; 50 delimiter-free bytes with no content type are
accepted. -/
theorem ensureCsv_length_delimiter_order_witness :
    ensureCsv (List.replicate 101 'a') (str "text/csv") = false ∧
    ensureCsv (List.replicate 50 'a') [] = true :=
  ⟨ensureCsv_length_delimiter_order.1 _ _ (by decide) (by decide),
   ensureCsv_length_delimiter_order.2 _ (by decide) (by decide) (by decide) (by decide)⟩

/-- C10: the exact-100-byte boundary.  A buffer of length exactly 100
with no delimiter and no newline in its sample, no HTML marker, and a
content type that is neither HTML-ish nor CSV-ish is classified not
CSV: both the `> 100` reject rule and the `< 100` leniency rule exclude
the boundary, and the final disjunction resolves it to `false`. -/
theorem ensureCsv_exact_100_boundary (buffer contentType : Str)
    (hlen : buffer.length = 100)
    (hdel : hasDelimitersIn (sampleOf buffer) = false)
    (hnl : hasNewlinesIn (sampleOf buffer) = false)
    (hmark : htmlMarkers.any (fun marker => includesB marker (sampleOf buffer)) = false)
    (hcthtml : (includesB (str "text/html") (lowerStr contentType) ||
                includesB (str "application/xhtml") (lowerStr contentType)) = false)
    (hctcsv : validTypes.any (fun t => includesB t (lowerStr contentType)) = false) :
    ensureCsv buffer contentType = false := by
  simp [ensureCsv, hcthtml, hctcsv, hmark, hdel, hnl, hlen]

/-- C10 witness: 100 delimiter-free bytes with an empty content type
are rejected. -/
theorem ensureCsv_exact_100_boundary_witness :
    ensureCsv (List.replicate 100 'a') [] = false :=
  ensureCsv_exact_100_boundary _ _ (by decide) (by decide) (by decide) (by decide)
    (by decide) (by decide)

/-! ## Theorems about login verification (C3) -/

/-- Signal 1 as the spec words it: the post-submit URL does not contain
`/login` and (contains `/account` or `/dashboard` or equals the bare
base URL, i.e. the base URL's root `baseUrl + '/'`). -/
def specSignal1 (currentUrl baseUrl : Str) : Bool :=
  !includesB (str "/login") currentUrl &&
  (includesB (str "/account") currentUrl ||
   includesB (str "/dashboard") currentUrl ||
   decide (currentUrl = baseUrl ++ str "/"))

/-- Signal 2 as the spec words it: some configured account-indicator
selector is visible. -/
def specSignal2 (indicators : List (Option Bool)) : Bool :=
  indicators.any (fun probe => probe == some true)

/-- C3: login verification succeeds iff Signal 1 or Signal 2 fires.
In particular a post-submit URL equal to the bare base URL with no
account indicator verifies as logged in, and a URL still containing
`/login` with no visible indicator makes the verification step throw
(fatal for the attempt). -/
theorem loginVerify_iff_signals :
    (∀ currentUrl baseUrl : Str, ∀ indicators : List (Option Bool),
      loginVerify currentUrl baseUrl indicators =
        (specSignal1 currentUrl baseUrl || specSignal2 indicators)) ∧
    loginVerify (str "https://www.ingrosmart.it/") (str "https://www.ingrosmart.it") [] = true ∧
    (∀ currentUrl baseUrl : Str, ∀ indicators : List (Option Bool),
      includesB (str "/login") currentUrl = true →
      specSignal2 indicators = false →
      loginOutcome currentUrl baseUrl indicators = .error loginFailedMsg) := by
  refine ⟨?_, by decide, ?_⟩
  · intro currentUrl baseUrl indicators
    simp only [loginVerify, specSignal1, specSignal2]
    split
    next h => simp [h]
    next h =>
      simp only [Bool.not_eq_true] at h
      simp [h]
  · intro currentUrl baseUrl indicators hurl hsig
    simp only [specSignal2] at hsig
    simp [loginOutcome, loginVerify, hurl, hsig]

/-- C3 witness: a URL still on the login path with one invisible and
one lookup-throwing indicator is fatal. -/
theorem loginVerify_iff_signals_witness :
    loginOutcome (str "https://www.ingrosmart.it/customer/account/login/")
      (str "https://www.ingrosmart.it") [some false, none] = .error loginFailedMsg :=
  loginVerify_iff_signals.2.2 _ _ _ (by decide) (by decide)

/-! ## Theorems about `clickFirst` / `fillFirst` (C7) -/

/-- A selector the source's loop can act on: its lookup does not throw
and its element is visible. -/
def eligibleSel (page : Str → SelProbe) (s : Str) : Bool :=
  !(page s).locateThrows && (page s).visible

/-- A page on which selector `a` is visible but clicking it throws,
while selector `b` is visible and clickable. -/
def pageActThrow : Str → SelProbe := fun s =>
  if s = str "a" then ⟨false, true, true⟩ else ⟨false, true, false⟩

/-- C7 counterexample: on `pageActThrow`, selector `a` is the first
visible selector (its lookup does not throw), yet `clickFirst` attempts
the action on `a`, does not return, goes on to try the later selector
`b`, acts on it too and only then returns success — refuting "perform
their action on the first selector whose element is visible and
immediately return success without trying any later selector". -/
theorem clickFirst_claim_counterexample :
    (pageActThrow (str "a")).locateThrows = false ∧
    (pageActThrow (str "a")).visible = true ∧
    clickFirst pageActThrow [str "a", str "b"] =
      ⟨true, [str "a", str "b"]⟩ ∧
    (clickFirst pageActThrow [str "a", str "b"]).acted ≠ [str "a"] := by
  refine ⟨by decide, by decide, by decide, by decide⟩

/-- C7 amended: `clickFirst`/`fillFirst` examine selectors strictly in
list order; a selector whose lookup throws is skipped; a visible
selector whose action throws is also skipped (after the attempted
action); on the first visible selector whose action succeeds they
return success immediately, never examining later selectors; and if no
selector yields a visible element they return failure without
throwing. -/
theorem clickFirst_fillFirst_order (page : Str → SelProbe) :
    (∀ value : Str, ∀ sels : List Str,
      fillFirst page value sels = clickFirst page sels) ∧
    (∀ s : Str, ∀ rest : List Str, (page s).locateThrows = true →
      clickFirst page (s :: rest) = clickFirst page rest) ∧
    (∀ sels : List Str, (∀ s ∈ sels, eligibleSel page s = false) →
      clickFirst page sels = ⟨false, []⟩) ∧
    (∀ pre : List Str, ∀ s : Str, ∀ post : List Str,
      (∀ t ∈ pre, eligibleSel page t = false ∨ (page t).actionThrows = true) →
      eligibleSel page s = true → (page s).actionThrows = false →
      clickFirst page (pre ++ s :: post) =
        ⟨true, pre.filter (fun t => eligibleSel page t) ++ [s]⟩) := by
  refine ⟨?_, ?_, ?_, ?_⟩
  · intro value sels
    induction sels with
    | nil => rfl
    | cons s rest ih => simp only [fillFirst, clickFirst, ih]
  · intro s rest h
    simp [clickFirst, h]
  · intro sels h
    induction sels with
    | nil => rfl
    | cons s rest ih =>
      have hs := h s (by simp)
      have ht : ∀ t ∈ rest, eligibleSel page t = false :=
        fun t htm => h t (by simp [htm])
      simp only [clickFirst]
      cases hl : (page s).locateThrows with
      | true => simp [hl, ih ht]
      | false =>
        have hv : (page s).visible = false := by
          simpa [eligibleSel, hl] using hs
        simp [hl, hv, ih ht]
  · intro pre s post hpre hs hact
    induction pre with
    | nil =>
      have hs' : (page s).locateThrows = false ∧ (page s).visible = true := by
        simpa [eligibleSel] using hs
      simp [clickFirst, hs'.1, hs'.2, hact]
    | cons t pre ih =>
      have htl : ∀ u ∈ pre, eligibleSel page u = false ∨ (page u).actionThrows = true :=
        fun u hum => hpre u (by simp [hum])
      have hrec := ih htl
      cases he : eligibleSel page t with
      | false =>
        cases hl : (page t).locateThrows with
        | true =>
          simpa [clickFirst, hl, he] using hrec
        | false =>
          have hv : (page t).visible = false := by
            simpa [eligibleSel, hl] using he
          simpa [clickFirst, hl, hv, he] using hrec
      | true =>
        have hta : (page t).actionThrows = true := by
          rcases hpre t (by simp) with h' | h'
          · rw [he] at h'; cases h'
          · exact h'
        have he' : (page t).locateThrows = false ∧ (page t).visible = true := by
          simpa [eligibleSel] using he
        simp [clickFirst, he'.1, he'.2, hta, he, hrec]

/-- C7 witness for the amended theorem: a list whose first selector is
invisible and whose second selector's lookup throws acts exactly once,
on the third selector. -/
theorem clickFirst_fillFirst_order_witness :
    clickFirst
      (fun s => if s = str "a" then ⟨false, false, false⟩
                else if s = str "b" then ⟨true, true, false⟩
                else ⟨false, true, false⟩)
      [str "a", str "b", str "c"] = ⟨true, [str "c"]⟩ := by
  have h := (clickFirst_fillFirst_order
      (fun s => if s = str "a" then ⟨false, false, false⟩
                else if s = str "b" then ⟨true, true, false⟩
                else ⟨false, true, false⟩)).2.2.2
    [str "a", str "b"] (str "c") [] (by decide) (by decide) (by decide)
  exact h.trans (by decide)

/-! ## Theorems about the Retry Engine (C1) -/

/-- Unfolding equation: a successful invocation returns immediately. -/
lemma withRetryAux_step_ok {ε α : Type} {fn : Nat → Except ε α}
    {retries baseDelayMs maxDelayMs a : Nat} {v : α} (hfx : fn a = .ok v) :
    withRetryAux fn retries baseDelayMs maxDelayMs a = ⟨.ok v, 1, []⟩ := by
  rw [withRetryAux, hfx]

/-- Unfolding equation: a failed invocation with attempts left sleeps
the capped exponential delay and continues. -/
lemma withRetryAux_step_err_cont {ε α : Type} {fn : Nat → Except ε α}
    {retries baseDelayMs maxDelayMs a : Nat} {e : ε}
    (hfx : fn a = .error e) (hle : a ≤ retries) :
    withRetryAux fn retries baseDelayMs maxDelayMs a =
      ⟨(withRetryAux fn retries baseDelayMs maxDelayMs (a + 1)).result,
       (withRetryAux fn retries baseDelayMs maxDelayMs (a + 1)).calls + 1,
       min (baseDelayMs * 2 ^ (a - 1)) maxDelayMs ::
         (withRetryAux fn retries baseDelayMs maxDelayMs (a + 1)).delays⟩ := by
  rw [withRetryAux, hfx]
  simp [hle]

/-- Unfolding equation: a failed invocation with no attempts left
re-throws. -/
lemma withRetryAux_step_err_stop {ε α : Type} {fn : Nat → Except ε α}
    {retries baseDelayMs maxDelayMs a : Nat} {e : ε}
    (hfx : fn a = .error e) (hnle : ¬ a ≤ retries) :
    withRetryAux fn retries baseDelayMs maxDelayMs a = ⟨.error e, 1, []⟩ := by
  rw [withRetryAux, hfx]
  simp [hnle]

/-- Entered at attempt `a ≤ retries + 1`, the loop invokes the
operation at most `retries + 2 - a` more times. -/
lemma withRetryAux_calls_le {ε α : Type} (fn : Nat → Except ε α)
    (retries baseDelayMs maxDelayMs : Nat) :
    ∀ a : Nat, a ≤ retries + 1 →
      (withRetryAux fn retries baseDelayMs maxDelayMs a).calls ≤ retries + 2 - a := by
  intro a
  induction a using withRetryAux.induct fn retries baseDelayMs maxDelayMs with
  | case1 x v hfx =>
    intro hx
    rw [withRetryAux_step_ok hfx]
    show 1 ≤ retries + 2 - x
    omega
  | case2 x e hfx hle ih =>
    intro hx
    have h2 := ih (by omega)
    rw [withRetryAux_step_err_cont hfx hle]
    show (withRetryAux fn retries baseDelayMs maxDelayMs (x + 1)).calls + 1 ≤ retries + 2 - x
    omega
  | case3 x e hfx hnle =>
    intro hx
    rw [withRetryAux_step_err_stop hfx hnle]
    show 1 ≤ retries + 2 - x
    omega

/-- If every remaining invocation fails, the loop runs all remaining
attempts, re-throws the last error and sleeps exactly the capped
exponential delays. -/
lemma withRetryAux_all_fail {ε α : Type} (fn : Nat → Except ε α)
    (retries baseDelayMs maxDelayMs : Nat) :
    ∀ a : Nat, 1 ≤ a → a ≤ retries + 1 →
      (∀ k, a ≤ k → k ≤ retries + 1 → (fn k).isOk = false) →
      (withRetryAux fn retries baseDelayMs maxDelayMs a).result = fn (retries + 1) ∧
      (withRetryAux fn retries baseDelayMs maxDelayMs a).calls = retries + 2 - a ∧
      (withRetryAux fn retries baseDelayMs maxDelayMs a).delays =
        (List.range' a (retries + 1 - a)).map
          (fun k => min (baseDelayMs * 2 ^ (k - 1)) maxDelayMs) := by
  intro a
  induction a using withRetryAux.induct fn retries baseDelayMs maxDelayMs with
  | case1 x v hfx =>
    intro hx1 hx2 hall
    have hbad := hall x (le_refl x) hx2
    rw [hfx] at hbad
    simp [Except.isOk, Except.toBool] at hbad
  | case2 x e hfx hle ih =>
    intro hx1 hx2 hall
    obtain ⟨ih1, ih2, ih3⟩ := ih (by omega) (by omega)
      (fun k hk1 hk2 => hall k (by omega) hk2)
    rw [withRetryAux_step_err_cont hfx hle]
    refine ⟨ih1, ?_, ?_⟩
    · show (withRetryAux fn retries baseDelayMs maxDelayMs (x + 1)).calls + 1 = retries + 2 - x
      omega
    · show min (baseDelayMs * 2 ^ (x - 1)) maxDelayMs ::
          (withRetryAux fn retries baseDelayMs maxDelayMs (x + 1)).delays =
        (List.range' x (retries + 1 - x)).map
          (fun k => min (baseDelayMs * 2 ^ (k - 1)) maxDelayMs)
      rw [ih3, show retries + 1 - x = (retries - x) + 1 from by omega, List.range']
      simp only [List.map_cons]
      rw [show retries + 1 - (x + 1) = retries - x from by omega]
  | case3 x e hfx hnle =>
    intro hx1 hx2 hall
    obtain rfl : x = retries + 1 := by omega
    rw [withRetryAux_step_err_stop hfx hnle]
    refine ⟨hfx.symm, ?_, ?_⟩
    · show 1 = retries + 2 - (retries + 1)
      omega
    · show ([] : List Nat) =
        (List.range' (retries + 1) (retries + 1 - (retries + 1))).map
          (fun k => min (baseDelayMs * 2 ^ (k - 1)) maxDelayMs)
      rw [Nat.sub_self]
      rfl

/-- If the `j`-th invocation is the first success, the loop returns
that result and stops after exactly `j` invocations counted from the
entry attempt. -/
lemma withRetryAux_first_ok {ε α : Type} (fn : Nat → Except ε α)
    (retries baseDelayMs maxDelayMs : Nat) (j : Nat) (v : α) (hfj : fn j = .ok v) :
    ∀ a : Nat, a ≤ j → j ≤ retries + 1 →
      (∀ k, a ≤ k → k < j → (fn k).isOk = false) →
      (withRetryAux fn retries baseDelayMs maxDelayMs a).result = .ok v ∧
      (withRetryAux fn retries baseDelayMs maxDelayMs a).calls = j - a + 1 := by
  intro a
  induction a using withRetryAux.induct fn retries baseDelayMs maxDelayMs with
  | case1 x v' hfx =>
    intro hxj hjr hall
    rcases Nat.lt_or_ge x j with hlt | hge
    · have hbad := hall x (le_refl x) hlt
      rw [hfx] at hbad
      simp [Except.isOk, Except.toBool] at hbad
    · obtain rfl : x = j := by omega
      rw [hfj] at hfx
      injection hfx with hv
      rw [withRetryAux_step_ok hfj, hv]
      exact ⟨rfl, by show 1 = x - x + 1; omega⟩
  | case2 x e hfx hle ih =>
    intro hxj hjr hall
    have hxlt : x < j := by
      rcases Nat.lt_or_ge x j with h | h
      · exact h
      · obtain rfl : x = j := by omega
        rw [hfj] at hfx
        cases hfx
    obtain ⟨ih1, ih2⟩ := ih (by omega) hjr (fun k hk1 hk2 => hall k (by omega) hk2)
    rw [withRetryAux_step_err_cont hfx hle]
    refine ⟨ih1, ?_⟩
    show (withRetryAux fn retries baseDelayMs maxDelayMs (x + 1)).calls + 1 = j - x + 1
    omega
  | case3 x e hfx hnle =>
    intro hxj hjr hall
    obtain rfl : x = j := by omega
    rw [hfj] at hfx
    cases hfx

/-- C1: `withRetry` invokes the operation at most `retries + 1` times;
when every invocation throws it re-throws the last thrown outcome
itself after the final attempt, having slept
`min(baseDelayMs * 2^(k-1), maxDelayMs)` between failed attempt `k`
and attempt `k + 1` for `k = 1..retries`; and when the `j`-th
invocation is the first to succeed, its result is returned with
exactly `j` invocations having occurred. -/
theorem withRetry_policy {ε α : Type} (fn : Nat → Except ε α)
    (retries baseDelayMs maxDelayMs : Nat) :
    (withRetry fn retries baseDelayMs maxDelayMs).calls ≤ retries + 1 ∧
    ((∀ k, 1 ≤ k → k ≤ retries + 1 → (fn k).isOk = false) →
      (withRetry fn retries baseDelayMs maxDelayMs).result = fn (retries + 1) ∧
      (withRetry fn retries baseDelayMs maxDelayMs).calls = retries + 1 ∧
      (withRetry fn retries baseDelayMs maxDelayMs).delays =
        (List.range' 1 retries).map
          (fun k => min (baseDelayMs * 2 ^ (k - 1)) maxDelayMs)) ∧
    (∀ j : Nat, ∀ v : α, 1 ≤ j → j ≤ retries + 1 → fn j = .ok v →
      (∀ k, 1 ≤ k → k < j → (fn k).isOk = false) →
      (withRetry fn retries baseDelayMs maxDelayMs).result = .ok v ∧
      (withRetry fn retries baseDelayMs maxDelayMs).calls = j) := by
  unfold withRetry
  refine ⟨?_, ?_, ?_⟩
  · have h := withRetryAux_calls_le fn retries baseDelayMs maxDelayMs 1 (by omega)
    omega
  · intro hall
    obtain ⟨h1, h2, h3⟩ :=
      withRetryAux_all_fail fn retries baseDelayMs maxDelayMs 1 (le_refl 1) (by omega) hall
    refine ⟨h1, by omega, ?_⟩
    rw [h3, show retries + 1 - 1 = retries from by omega]
  · intro j v hj1 hjr hfj hall
    obtain ⟨h1, h2⟩ :=
      withRetryAux_first_ok fn retries baseDelayMs maxDelayMs j v hfj 1 hj1 hjr hall
    exact ⟨h1, by omega⟩

/-- C1 witness: with `retries = 2, baseDelayMs = 100` and an operation
that always throws, the operation runs exactly 3 times, the delays are
100ms then 200ms, and the original error is re-thrown. -/
theorem withRetry_policy_witness :
    (withRetry (fun _ => (.error 7 : Except Nat Nat)) 2 100 30000).result = .error 7 ∧
    (withRetry (fun _ => (.error 7 : Except Nat Nat)) 2 100 30000).calls = 3 ∧
    (withRetry (fun _ => (.error 7 : Except Nat Nat)) 2 100 30000).delays = [100, 200] := by
  obtain ⟨h1, h2, h3⟩ :=
    (withRetry_policy (fun _ => (.error 7 : Except Nat Nat)) 2 100 30000).2.1
      (fun _ _ _ => rfl)
  refine ⟨h1, h2, ?_⟩
  rw [h3]
  decide

/-! ## Theorems about the download flow (C2) -/

/-- Characters of a prefix occur in the word. -/
lemma mem_of_isPrefixOf : ∀ {l₁ l₂ : Str}, l₁.isPrefixOf l₂ = true →
    ∀ c ∈ l₁, c ∈ l₂ := by
  intro l₁
  induction l₁ with
  | nil => intro l₂ _ c hc; cases hc
  | cons a as ih =>
    intro l₂ h c hc
    cases l₂ with
    | nil => simp [List.isPrefixOf] at h
    | cons b bs =>
      simp only [List.isPrefixOf, Bool.and_eq_true, beq_iff_eq] at h
      cases hc with
      | head => simp [h.1]
      | tail _ hc => exact List.mem_cons_of_mem b (ih h.2 c hc)

/-- Characters of a substring occur in the containing string. -/
lemma mem_of_includesB : ∀ {hay needle : Str}, includesB needle hay = true →
    ∀ c ∈ needle, c ∈ hay := by
  intro hay
  induction hay with
  | nil =>
    intro needle h c hc
    simp only [includesB, List.isEmpty_iff] at h
    subst h
    cases hc
  | cons b bs ih =>
    intro needle h c hc
    simp only [includesB, Bool.or_eq_true] at h
    rcases h with h | h
    · exact mem_of_isPrefixOf h c hc
    · exact List.mem_cons_of_mem b (ih h c hc)

/-- Decimal digit characters are never the letter `M`. -/
lemma digitChar10_ne_M : ∀ d : Nat, digitChar10 d ≠ 'M' := by
  intro d
  match d with
  | 0 | 1 | 2 | 3 | 4 | 5 | 6 | 7 | 8 | 9 => decide
  | d + 10 => simp [digitChar10]

/-- The digit loop only ever emits digit characters on top of its
accumulator. -/
lemma natDigitsGo_ne_M : ∀ fuel n : Nat, ∀ acc : Str,
    (∀ c ∈ acc, c ≠ 'M') → ∀ c ∈ natDigitsGo fuel n acc, c ≠ 'M' := by
  intro fuel
  induction fuel with
  | zero => intro n acc hacc c hc; exact hacc c hc
  | succ fuel ih =>
    intro n acc hacc c hc
    simp only [natDigitsGo] at hc
    by_cases hz : n / 10 = 0
    · rw [if_pos hz] at hc
      cases hc with
      | head => exact digitChar10_ne_M _
      | tail _ hc => exact hacc c hc
    · rw [if_neg hz] at hc
      refine ih (n / 10) _ ?_ c hc
      intro c' hc'
      cases hc' with
      | head => exact digitChar10_ne_M _
      | tail _ hc' => exact hacc c' hc'

/-- A `HTTP ${status} received` error message never contains the
session-expired marker, whatever the status code. -/
lemma httpStatusMsg_no_marker (status : Nat) :
    includesB sessionExpiredMarker (httpStatusMsg status) = false := by
  by_contra hne
  have hinc : includesB sessionExpiredMarker (httpStatusMsg status) = true := by
    revert hne
    cases includesB sessionExpiredMarker (httpStatusMsg status) <;> simp
  have hM : 'M' ∈ httpStatusMsg status :=
    mem_of_includesB hinc 'M' (by decide)
  simp only [httpStatusMsg, List.mem_append] at hM
  rcases hM with (hM | hM) | hM
  · revert hM; decide
  · exact natDigitsGo_ne_M _ _ _ (by intro c hc; cases hc) 'M' hM rfl
  · revert hM; decide

/-- C2: within one attempt of the download flow, a 200-status body the
classifier rejects triggers exactly one re-login and (when that login
succeeds) exactly one further fetch whose outcome becomes the attempt's
outcome, while a non-200 status or a network error is propagated
unchanged with no re-login and no second fetch. -/
theorem downloadWithRelogin_policy :
    (∀ contentType body : Str, ∀ relogin : Except Str Unit, ∀ fetch2 : FetchOutcome,
      ensureCsv body contentType = false →
      (downloadWithRelogin (.response 200 contentType body) relogin fetch2).loginCalls = 1 ∧
      (downloadWithRelogin (.response 200 contentType body) (.ok ()) fetch2).fetchCalls = 2 ∧
      (downloadWithRelogin (.response 200 contentType body) (.ok ()) fetch2).result =
        downloadCsv fetch2) ∧
    (∀ status : Nat, ∀ contentType body : Str, ∀ relogin : Except Str Unit,
      ∀ fetch2 : FetchOutcome, status ≠ 200 →
      downloadWithRelogin (.response status contentType body) relogin fetch2 =
        ⟨.error (httpStatusMsg status), 1, 0⟩) ∧
    (∀ msg : Str, ∀ relogin : Except Str Unit, ∀ fetch2 : FetchOutcome,
      includesB sessionExpiredMarker msg = false →
      downloadWithRelogin (.netError msg) relogin fetch2 = ⟨.error msg, 1, 0⟩) := by
  refine ⟨?_, ?_, ?_⟩
  · intro contentType body relogin fetch2 hcsv
    have hdl : downloadCsv (.response 200 contentType body) = .error notCsvMsg := by
      simp [downloadCsv, hcsv]
    have hmark : includesB sessionExpiredMarker notCsvMsg = true := by decide
    refine ⟨?_, ?_, ?_⟩
    · cases relogin with
      | error le => simp [downloadWithRelogin, hdl, hmark]
      | ok u => simp [downloadWithRelogin, hdl, hmark]
    · simp [downloadWithRelogin, hdl, hmark]
    · simp [downloadWithRelogin, hdl, hmark]
  · intro status contentType body relogin fetch2 hst
    have hdl : downloadCsv (.response status contentType body) =
        .error (httpStatusMsg status) := by
      simp [downloadCsv, hst]
    simp [downloadWithRelogin, hdl, httpStatusMsg_no_marker]
  · intro msg relogin fetch2 hmsg
    simp [downloadWithRelogin, downloadCsv, hmsg]

/-- C2 witness: an HTML body under status 200 re-logs-in once and
refetches, returning the second fetch's CSV; a 403 propagates with no
re-login; a DNS-style network error propagates with no re-login. -/
theorem downloadWithRelogin_policy_witness :
    (downloadWithRelogin
        (.response 200 (str "text/html") (str "<html><body>login</body></html>"))
        (.ok ())
        (.response 200 (str "text/csv") (str "id,name\n1,2"))).loginCalls = 1 ∧
    (downloadWithRelogin
        (.response 200 (str "text/html") (str "<html><body>login</body></html>"))
        (.ok ())
        (.response 200 (str "text/csv") (str "id,name\n1,2"))).fetchCalls = 2 ∧
    downloadWithRelogin
        (.response 403 (str "text/html") (str "<html></html>"))
        (.ok ()) (.netError (str "net::ERR")) =
      ⟨.error (httpStatusMsg 403), 1, 0⟩ ∧
    downloadWithRelogin (.netError (str "net::ERR_CONNECTION_REFUSED"))
        (.ok ()) (.netError (str "net::ERR")) =
      ⟨.error (str "net::ERR_CONNECTION_REFUSED"), 1, 0⟩ := by
  obtain ⟨h1, h2, _⟩ := downloadWithRelogin_policy.1
    (str "text/html") (str "<html><body>login</body></html>")
    (.ok ()) (.response 200 (str "text/csv") (str "id,name\n1,2")) (by decide)
  exact ⟨h1, h2,
    downloadWithRelogin_policy.2.1 403 _ _ _ _ (by decide),
    downloadWithRelogin_policy.2.2 _ _ _ (by decide)⟩

/-! ## Theorems about the delivery invariant (C8) -/

/-- A successful retried run's value comes from some invocation of the
wrapped operation. -/
lemma withRetryAux_ok_from_fn {ε α : Type} (fn : Nat → Except ε α)
    (retries baseDelayMs maxDelayMs : Nat) (v : α) :
    ∀ a : Nat, (withRetryAux fn retries baseDelayMs maxDelayMs a).result = .ok v →
      ∃ k, fn k = .ok v := by
  intro a
  induction a using withRetryAux.induct fn retries baseDelayMs maxDelayMs with
  | case1 x v' hfx =>
    intro h
    rw [withRetryAux_step_ok hfx] at h
    injection h with hv
    exact ⟨x, by rw [hfx, hv]⟩
  | case2 x e hfx hle ih =>
    intro h
    rw [withRetryAux_step_err_cont hfx hle] at h
    exact ih h
  | case3 x e hfx hnle =>
    intro h
    rw [withRetryAux_step_err_stop hfx hnle] at h
    cases h

/-- A payload `downloadCsv` returns has passed the Content
Classifier. -/
lemma downloadCsv_ok_ensures (f : FetchOutcome) (p : CsvPayload)
    (h : downloadCsv f = .ok p) :
    ensureCsv p.buffer p.contentType = true := by
  cases f with
  | netError msg => simp [downloadCsv] at h
  | response status contentType body =>
    simp only [downloadCsv] at h
    split at h
    · cases h
    · split at h
      · cases h
      · injection h with hp
        subst hp
        next hcsv =>
        simp only [Bool.not_eq_true'] at hcsv
        simpa using hcsv

/-- A payload `downloadWithRelogin` returns came from one of its two
`downloadCsv` fetches. -/
lemma downloadWithRelogin_ok_from_fetch (fetch1 : FetchOutcome)
    (relogin : Except Str Unit) (fetch2 : FetchOutcome) (p : CsvPayload)
    (h : (downloadWithRelogin fetch1 relogin fetch2).result = .ok p) :
    downloadCsv fetch1 = .ok p ∨ downloadCsv fetch2 = .ok p := by
  cases hdl : downloadCsv fetch1 with
  | ok q =>
    simp only [downloadWithRelogin, hdl] at h
    injection h with hq
    exact Or.inl (congrArg Except.ok hq)
  | error e =>
    simp only [downloadWithRelogin, hdl] at h
    by_cases hmark : includesB sessionExpiredMarker e = true
    · rw [if_pos hmark] at h
      cases relogin with
      | error le => exact Except.noConfusion h
      | ok u => exact Or.inr h
    · rw [if_neg hmark] at h
      exact Except.noConfusion h

/-- C8: in every run of the agent, the buffer handed to the delivery
collaborator (together with its declared content type) was accepted by
the Content Classifier — `downloadCsv` throws before returning whenever
`ensureCsv` rejects the body, so no rejected buffer reaches
`deliver`. -/
theorem runAgent_delivers_only_csv (env : Nat → AttemptEnv) (buffer contentType : Str)
    (h : runAgentDelivered env = some (buffer, contentType)) :
    ensureCsv buffer contentType = true := by
  unfold runAgentDelivered at h
  cases hres : (withRetry
      (fun k => (downloadWithRelogin (env k).fetch1 (env k).relogin (env k).fetch2).result)
      2 2000 30000).result with
  | error e => rw [hres] at h; cases h
  | ok payload =>
    rw [hres] at h
    injection h with hpair
    obtain ⟨k, hk⟩ := withRetryAux_ok_from_fn _ 2 2000 30000 payload 1 hres
    have hens := (downloadWithRelogin_ok_from_fetch _ _ _ _ hk).elim
      (fun h' => downloadCsv_ok_ensures _ _ h')
      (fun h' => downloadCsv_ok_ensures _ _ h')
    have hb : buffer = payload.buffer := by
      have := congrArg Prod.fst hpair
      exact this.symm
    have hc : contentType = payload.contentType := by
      have := congrArg Prod.snd hpair
      exact this.symm
    rw [hb, hc]
    exact hens

/-- An environment whose every fetch returns a clean CSV export. -/
def goodEnv : Nat → AttemptEnv := fun _ =>
  ⟨.response 200 (str "text/csv") (str "id,name\n1,2"), .ok (),
   .response 200 (str "text/csv") (str "id,name\n1,2")⟩

/-- C8 witness: under `goodEnv` the agent delivers the CSV body, and
the invariant instantiates to its classification. -/
theorem runAgent_delivers_only_csv_witness :
    ensureCsv (str "id,name\n1,2") (str "text/csv") = true :=
  runAgent_delivers_only_csv goodEnv (str "id,name\n1,2") (str "text/csv")
    (by
      have hstep := @withRetryAux_step_ok _ _
        (fun k => (downloadWithRelogin (goodEnv k).fetch1 (goodEnv k).relogin
          (goodEnv k).fetch2).result)
        2 2000 30000 1 ⟨str "id,name\n1,2", str "text/csv", 11⟩ rfl
      unfold runAgentDelivered
      rw [withRetry, hstep])

/-! ## Theorems about the two storage revisions (C9) -/

/-- During the first half of the hour the newest revision's history
slot is `ingrosmart_backup_1.csv`. -/
lemma newHistoryFilename_lt (currentMinute : Nat) (h : currentMinute < 30) :
    newHistoryFilename currentMinute = str "ingrosmart_backup_1.csv" := by
  unfold newHistoryFilename
  rw [if_pos h]
  decide

/-- During the second half of the hour the newest revision's history
slot is `ingrosmart_backup_2.csv`. -/
lemma newHistoryFilename_ge (currentMinute : Nat) (h : ¬ currentMinute < 30) :
    newHistoryFilename currentMinute = str "ingrosmart_backup_2.csv" := by
  unfold newHistoryFilename
  rw [if_neg h]
  decide

/-- The older revision's local pruning deletes exactly the history
files beyond the first `keepCount` in newest-first order. -/
lemma pruneLocalHistoryOld_eq_drop (files : List Str) (keepCount : Nat) :
    pruneLocalHistoryOld files keepCount = (histNewestFirst files).drop keepCount := by
  show (if (histNewestFirst files).length > keepCount
        then List.drop keepCount (histNewestFirst files) else []) =
    List.drop keepCount (histNewestFirst files)
  split_ifs with h
  · rfl
  · exact (List.drop_eq_nil_of_le (by omega)).symm

/-- C9: the newest `deliver` revision writes the catalog file and
exactly one of two fixed slot filenames chosen by minute-of-hour, and
its `pruneHistory` deletes nothing for every target and keep count;
the older revision names history copies `ingrosmart-${timestamp}.csv`
and its local pruning keeps the newest `keepCount` history files and
deletes all the rest; no single revision carries both retention
policies. -/
theorem storage_revision_policies :
    (∀ target catalogFilename : Str, ∀ currentMinute : Nat,
      deliverNewWrites target catalogFilename currentMinute =
        [catalogFilename,
         if currentMinute < 30 then str "ingrosmart_backup_1.csv"
         else str "ingrosmart_backup_2.csv"]) ∧
    (∀ target : Str, ∀ keepCount : Int, pruneHistoryNew target keepCount = []) ∧
    (∀ target catalogFilename timestamp : Str,
      deliverOldWrites target catalogFilename timestamp =
        [catalogFilename, str "ingrosmart-" ++ timestamp ++ str ".csv"]) ∧
    (∀ files : List Str, ∀ keepCount : Nat,
      pruneLocalHistoryOld files keepCount = (histNewestFirst files).drop keepCount ∧
      histNewestFirst files =
        (histNewestFirst files).take keepCount ++ pruneLocalHistoryOld files keepCount ∧
      (histNewestFirst files).Perm (files.filter isHistoryCsvName)) := by
  refine ⟨?_, ?_, ?_, ?_⟩
  · intro target catalogFilename currentMinute
    have hsame : deliverNewWrites target catalogFilename currentMinute =
        [catalogFilename, newHistoryFilename currentMinute] := by
      unfold deliverNewWrites
      split_ifs <;> rfl
    rw [hsame]
    by_cases hm : currentMinute < 30
    · rw [if_pos hm, newHistoryFilename_lt _ hm]
    · rw [if_neg hm, newHistoryFilename_ge _ hm]
  · intro target keepCount
    rfl
  · intro target catalogFilename timestamp
    unfold deliverOldWrites oldHistoryFilename
    split_ifs <;> rfl
  · intro files keepCount
    refine ⟨pruneLocalHistoryOld_eq_drop files keepCount, ?_, ?_⟩
    · rw [pruneLocalHistoryOld_eq_drop]
      exact (List.take_append_drop keepCount _).symm
    · exact (List.reverse_perm _).trans
        (List.perm_insertionSort StrLe (files.filter isHistoryCsvName))

end Ingrosmart
